import Mathlib

/-!
# cesium-concierge: policy engine for pull requests

A shallow embedding of `bin/stalePullRequest.js` and
`lib/commentOnOpenedPullRequest.js`, followed by theorems about them.

Conventions of the embedding

* JavaScript strings are Lean `String`s; `a + b` on strings is `++`.
* A promise is its settled outcome: `Except JSError α` (`.error` = rejected,
  or thrown when the function is synchronous).
* Every HTTP request is an `Effect`; stateful code threads the chronological
  list of effects performed so far (the history), and the outside world
  answers each request as a function of that history, so answers may change
  from one request to the next.
* `dateLog` and `console.error` only write diagnostics and never influence
  control flow; they are not recorded.
* `for (var i = 0; i < xs.length; i++)` over an array is recursion over the
  list of its elements, in order.
-/

/-! ## Shared JavaScript runtime pieces -/

/-- Errors a promise can be rejected with (or a function can throw). -/
inductive JSError where
  | typeError (message : String)
  | developerError (message : String)
  | statusCode (code : Nat)
  | requestError (message : String)
  deriving DecidableEq, Repr

/-- `String.prototype.startsWith(searchString)` with the default position 0. -/
def startsWith (s searchString : String) : Bool :=
  searchString.toList.isPrefixOf s.toList

/-- Scan of `String.prototype.indexOf`: the first position at or after `i`
where `searchString` occurs, `-1` when there is none. -/
def indexOfFrom (searchString : List Char) : List Char → Int → Int
  | [], i => if searchString.isPrefixOf [] then i else -1
  | c :: cs, i =>
    if searchString.isPrefixOf (c :: cs) then i
    else indexOfFrom searchString cs (i + 1)

/-- `String.prototype.indexOf(searchString)`. -/
def indexOf (s searchString : String) : Int :=
  indexOfFrom searchString.toList s.toList 0

/-- Request headers. -/
abbrev Headers := List (String × String)

/-- Observable actions, in the order the program performs them: a `GET` of a
url, or a `POST` to a url of the JSON object whose `body` field is `body`. -/
inductive Effect where
  | get (url : String) (headers : Headers)
  | post (url : String) (headers : Headers) (body : String)
  deriving DecidableEq, Repr

/-- The history of a run: the effects performed so far, oldest first. -/
abbrev History := List Effect

/-- A settled promise together with the history at the time it settles. -/
abbrev Outcome := Except JSError Unit × History

/-- Bluebird's `Promise.each(array, iterator)`: runs `iterator` on the items
one after another, each run starting when the previous one has resolved; the
first rejection rejects the whole promise and no later item is visited. -/
def promiseEach {α : Type} (iterator : α → History → Outcome) :
    List α → History → Outcome
  | [], h => (.ok (), h)
  | item :: items, h =>
    match iterator item h with
    | (.ok _, h1) => promiseEach iterator items h1
    | (.error e, h1) => (.error e, h1)

/-! ## `lib/commentOnOpenedPullRequest.js` -/

namespace commentOnOpenedPullRequest

def thankYouMessage : String := " thanks for the pull request!\n\n"

def changesMessage : String :=
  "I noticed that [`CHANGES.md`](https://github.com/AnalyticalGraphicsInc/cesium/blob/master/CHANGES.md) has not been updated. " ++
  "If this change updates the Cesium API in any way, fixes a bug, or makes any non-trivial update, please add a bullet point to `CHANGES.md` and bump this pull request so we know it was updated. " ++
  "For more info, see the [Pull Request Guidelines]( https://github.com/AnalyticalGraphicsInc/cesium/blob/master/CONTRIBUTING.md#pull-request-guidelines).\n\n"

def thirdPartyMessage1 : String := "I noticed that a file in "

def thirdPartyMessage2 : String :=
  " has been added or modified. " ++
  "Please verify that it has a section in [LICENSE.md](https://github.com/AnalyticalGraphicsInc/cesium/blob/master/LICENSE.md) " ++
  "and that its license information is up to date with this new version.  Once you do, please confirm by commenting on this pull request.\n\n"

def thanksAgain : String := "__I am a bot who helps you make Cesium awesome!__ Thanks again."

/-- The test `/^CHANGES\.md/.test(file)`: no flags, so `^` is the start of
the string and the pattern is the literal text `CHANGES.md`. -/
def changesRegexTest (file : String) : Bool :=
  startsWith file "CHANGES.md"

/-- `_didUpdateChanges(files)`: the loop returns `true` at the first file that
passes the test, `false` after the last one. -/
def _didUpdateChanges : List String → Bool
  | [] => false
  | file :: files =>
    if changesRegexTest file then true else _didUpdateChanges files

/-- Inner loop of `_didUpdateThirdParty`, over `thirdPartyFolders[j]` for one
file: `some true` is the early `return true`, `none` is falling out of the
loop. -/
def thirdPartyInnerLoop (file : String) : List String → Option Bool
  | [] => none
  | folder :: folders =>
    if startsWith file folder then some true
    else thirdPartyInnerLoop file folders

/-- Outer loop of `_didUpdateThirdParty`, over `files[i]`; falls through to
the final `return false`. -/
def thirdPartyOuterLoop (thirdPartyFolders : List String) : List String → Bool
  | [] => false
  | file :: files =>
    match thirdPartyInnerLoop file thirdPartyFolders with
    | some r => r
    | none => thirdPartyOuterLoop thirdPartyFolders files

/-- `_didUpdateThirdParty(files, thirdPartyFolders)`; `none` is an
`undefined` (or `null`) `thirdPartyFolders`, which `defined` rejects. -/
def _didUpdateThirdParty (files : List String)
    (thirdPartyFolders : Option (List String)) : Bool :=
  match thirdPartyFolders with
  | none => false
  | some folders =>
    if folders.length = 0 then false
    else thirdPartyOuterLoop folders files

/-- The `for` loop of the `default:` branch: from index `i`, appends
`thirdPartyFolders[i]` quoted and followed by a comma while
`i < thirdPartyFolders.length - 1`. `fuel` bounds the number of rounds. -/
def folderLoop (thirdPartyFolders : List String) :
    Nat → Nat → String → String
  | 0, _, message => message
  | fuel + 1, i, message =>
    if i < thirdPartyFolders.length - 1 then
      let folder := thirdPartyFolders.getD i "undefined"
      folderLoop thirdPartyFolders fuel (i + 1) (message ++ ("`" ++ folder ++ "`, "))
    else message

/-- The `switch (thirdPartyFolders.length)` statement: extends `message` with
the enumeration of the folders. An index outside the array reads `undefined`,
which string concatenation renders as the text `undefined`. -/
def appendFolders (thirdPartyFolders : List String) (message : String) : String :=
  match thirdPartyFolders.length with
  | 1 => message ++ ("`" ++ thirdPartyFolders.getD 0 "undefined" ++ "`")
  | 2 => message ++ ("`" ++ thirdPartyFolders.getD 0 "undefined" ++ "` or `" ++
      thirdPartyFolders.getD 1 "undefined" ++ "`")
  | n =>
    let message := folderLoop thirdPartyFolders n 0 message
    message ++ ("or `" ++ thirdPartyFolders.getD (n - 1) "undefined" ++ "`")

/-- Body of the changelog reminder, as built in `_implementation`. -/
def changesBody (user : String) : String :=
  let message := "@" ++ user ++ thankYouMessage
  let message := message ++ changesMessage
  message ++ thanksAgain

/-- Body of the restricted-folder reminder, as built in `_implementation`. -/
def thirdPartyBody (user : String) (thirdPartyFolders : List String) : String :=
  let message := "@" ++ user ++ thankYouMessage
  let message := message ++ thirdPartyMessage1
  let message := appendFolders thirdPartyFolders message
  let message := message ++ thirdPartyMessage2
  message ++ thanksAgain

end commentOnOpenedPullRequest

/-! ## `bin/stalePullRequest.js` -/

/-- The `user` object of a comment. -/
structure User where
  login : String
  deriving DecidableEq, Repr

/-- One comment of a comments response. `created_at` is the instant
`new Date(comment.created_at).getTime()`, in milliseconds. -/
structure Comment where
  body : String
  user : User
  created_at : Int
  deriving DecidableEq, Repr

/-- One pull request of the list of open pull requests. -/
structure PullRequest where
  comments_url : String
  deriving DecidableEq, Repr

/-- The argument handed to the stale-message template. -/
structure TemplateContext where
  maxDaysSinceUpdate : ℚ

/-- The settings of one repository that the stale job reads. -/
structure RepositorySettings where
  headers : Headers
  maxDaysSinceUpdate : ℚ
  stalePullRequestTemplate : TemplateContext → String

/-- One relation of a parsed `Link` header; `page` is absent when the
relation's url has no `page` parameter. -/
structure LinkInfo where
  page : Option String
  deriving DecidableEq, Repr

/-- A full response to the `GET` of a comments url: the `link` response
header, if any, and the parsed JSON body. -/
structure CommentsResponse where
  link : Option String
  body : List Comment

/-- Everything outside the stale job: the JavaScript built-ins and libraries
it calls and the server it talks to. Each request is answered as a function
of the history before it. `parseLink` is the `parse-link-header` package:
`none` is `null`, otherwise the relations by name. -/
structure StaleWorld where
  toLowerCase : String → String
  parseLink : Option String → Option (List (String × LinkInfo))
  now : History → Int
  getPullRequests : History → String → Headers → Except JSError (List PullRequest)
  getComments : History → String → Headers → Except JSError CommentsResponse
  post : History → String → Headers → String → Except JSError Unit

namespace stalePullRequest

/-- `stalePullRequest.foundStopComment(commentsJsonResponse)`. -/
def foundStopComment (toLowerCase : String → String) : List Comment → Bool
  | [] => false
  | c :: rest =>
    let comment := toLowerCase c.body
    let userName := c.user.login
    if userName ≠ "cesium-concierge" ∧ indexOf comment "@cesium-concierge stop" ≠ -1 then
      true
    else foundStopComment toLowerCase rest

def msPerDay : Int := 24 * 60 * 60 * 1000

/-- `stalePullRequest.daysSince(date)`, with `Date.now()` passed as `now`; the
division is exact. -/
def daysSince (now : Int) (date : Int) : ℚ :=
  ((now - date : Int) : ℚ) / (msPerDay : ℚ)

/-- The expression `parseLink(response.headers.link).last.page`: reading
`last` of `null`, or `page` of `undefined`, throws a `TypeError`; a missing
`page` reads `undefined`, which the concatenation renders as text. -/
def lastPageOf (parsed : Option (List (String × LinkInfo))) : Except JSError String :=
  match parsed with
  | none => .error (.typeError "Cannot read property 'last' of null")
  | some links =>
    match links.lookup "last" with
    | none => .error (.typeError "Cannot read property 'page' of undefined")
    | some info => .ok (info.page.getD "undefined")

/-- `stalePullRequest._processPullRequest(pullRequest, repositorySettings)`. -/
def _processPullRequest (w : StaleWorld) (pullRequest : PullRequest)
    (repositorySettings : RepositorySettings) (h : History) : Outcome :=
  let commentsUrl := pullRequest.comments_url
  let h1 := h ++ [Effect.get commentsUrl repositorySettings.headers]
  match w.getComments h commentsUrl repositorySettings.headers with
  | .error e => (.error e, h1)
  | .ok response =>
    match lastPageOf (w.parseLink response.link) with
    | .error e => (.error e, h1)
    | .ok lastPage =>
      let pageUrl := commentsUrl ++ "?page=" ++ lastPage
      let h2 := h1 ++ [Effect.get pageUrl repositorySettings.headers]
      match w.getComments h1 pageUrl repositorySettings.headers with
      | .error e => (.error e, h2)
      | .ok pageResponse =>
        let commentsJsonResponse := pageResponse.body
        let lastComment := commentsJsonResponse.getLast?
        let foundStop := foundStopComment w.toLowerCase commentsJsonResponse
        if foundStop then (.ok (), h2)
        else
          match lastComment with
          | none => (.error (.typeError "Cannot read property 'created_at' of undefined"), h2)
          | some lastComment =>
            if daysSince (w.now h2) lastComment.created_at ≥ repositorySettings.maxDaysSinceUpdate then
              let template := repositorySettings.stalePullRequestTemplate
              let body := template { maxDaysSinceUpdate := repositorySettings.maxDaysSinceUpdate }
              (w.post h2 commentsUrl repositorySettings.headers body,
                h2 ++ [Effect.post commentsUrl repositorySettings.headers body])
            else (.ok (), h2)

/-- `stalePullRequest._processRepository(repositoryName, repositorySettings)`. -/
def _processRepository (w : StaleWorld) (repositoryName : String)
    (repositorySettings : RepositorySettings) (h : History) : Outcome :=
  let url := "https://api.github.com/repos/" ++ repositoryName ++ "/pulls?state=open&base=master"
  let h1 := h ++ [Effect.get url repositorySettings.headers]
  match w.getPullRequests h url repositorySettings.headers with
  | .error e => (.error e, h1)
  | .ok pullRequestsJsonResponse =>
    promiseEach
      (fun pullRequest => _processPullRequest w pullRequest repositorySettings)
      pullRequestsJsonResponse h1

end stalePullRequest

/-- `stalePullRequest(repositories)`. The object `repositories` is the list
of its entries in `Object.keys` order, so that visiting the keys and reading
`repositories[repositoryName]` is visiting the entries. The property
`stalePullRequest._processRepository` is looked up at each call and is the
parameter `_processRepository`; `.catch` turns its rejection into a
resolution. -/
def stalePullRequest (_processRepository : String → RepositorySettings → History → Outcome)
    (repositories : List (String × RepositorySettings)) (h : History) : Outcome :=
  promiseEach
    (fun (entry : String × RepositorySettings) h0 =>
      let repositoryName := entry.1
      let repositorySettings := entry.2
      match _processRepository repositoryName repositorySettings h0 with
      | (.ok _, h1) => (.ok (), h1)
      | (.error _, h1) => (.ok (), h1))
    repositories h

/-- The stale job as run from the command line: `stalePullRequest` with the
module's own `_processRepository`. -/
def stalePullRequestJob (w : StaleWorld)
    (repositories : List (String × RepositorySettings)) (h : History) : Outcome :=
  stalePullRequest (stalePullRequest._processRepository w) repositories h

/-! ## `lib/commentOnOpenedPullRequest.js`: requests and entry point -/

/-- One entry of the changed-files response. -/
structure ChangedFile where
  filename : String
  deriving DecidableEq, Repr

/-- The full response to the `GET` of the files url. -/
structure FilesResponse where
  statusCode : Nat
  body : List ChangedFile
  deriving DecidableEq, Repr

/-- The server as seen by `_implementation`: its answer to the `GET` of the
files url. How it answers a post is never looked at. -/
structure OpenedWorld where
  getFiles : History → String → Headers → Except JSError FilesResponse

/-- A JavaScript value as the entry point can receive it. A number is carried
as the text `String(n)` gives for it. -/
inductive JSValue where
  | undefined
  | null
  | boolean (b : Bool)
  | number (text : String)
  | string (s : String)
  | array (items : List JSValue)
  | object (fields : List (String × JSValue))

namespace JSValue

/-- Reading `value.name` for a name that is no built-in property of strings,
arrays, numbers or booleans (`pull_request`, `user`, `login`, `url`,
`comments_url`): a `TypeError` on `undefined` and `null`, the field of an
object when it has one, `undefined` in every other case. -/
def getProp (value : JSValue) (name : String) : Except JSError JSValue :=
  match value with
  | .undefined => .error (.typeError ("Cannot read property '" ++ name ++ "' of undefined"))
  | .null => .error (.typeError ("Cannot read property '" ++ name ++ "' of null"))
  | .object fields => .ok ((fields.lookup name).getD .undefined)
  | _ => .ok .undefined

mutual
/-- The text `String(value)`, which `value + '...'` concatenates. -/
def toText : JSValue → String
  | .undefined => "undefined"
  | .null => "null"
  | .boolean b => if b then "true" else "false"
  | .number text => text
  | .string s => s
  | .array items => joinItems items
  | .object _ => "[object Object]"
/-- The text `items.join(',')`: `undefined` and `null` items are empty. -/
def joinItems : List JSValue → String
  | [] => ""
  | [.undefined] => ""
  | [.null] => ""
  | [item] => toText item
  | .undefined :: rest => "," ++ joinItems rest
  | .null :: rest => "," ++ joinItems rest
  | item :: rest => toText item ++ "," ++ joinItems rest
end

end JSValue

namespace commentOnOpenedPullRequest

/-- Modelled from the spec: `checkStatus` (`lib/checkStatus.js`) resolves
with the response when its status is 2xx and rejects with the status code
otherwise. -/
def checkStatus (response : FilesResponse) : Except JSError FilesResponse :=
  if 200 ≤ response.statusCode ∧ response.statusCode < 300 then .ok response
  else .error (.statusCode response.statusCode)

/-- `commentOnOpenedPullRequest._implementation(...)`, with the module-level
variable `user` passed as `user`. Each `requestPromise.post(...)` is an
argument of `prom.then`, so it is evaluated, and the request issued, where it
stands; `then` ignores an argument that is not a function, so the returned
promise does not depend on how the posts settle. -/
def _implementation (w : OpenedWorld) (user : String)
    (pullRequestFilesUrl pullRequestCommentsUrl : String) (headers : Headers)
    (thirdPartyFolders : Option (List String)) (checkChangesMd : Bool)
    (h : History) : Outcome :=
  let h1 := h ++ [Effect.get pullRequestFilesUrl headers]
  match w.getFiles h pullRequestFilesUrl headers with
  | .error e => (.error e, h1)
  | .ok filesJsonResponse =>
    match checkStatus filesJsonResponse with
    | .error e => (.error e, h1)
    | .ok filesJsonResponse =>
      let files := filesJsonResponse.body.map (fun file => file.filename)
      let didUpdateChanges := _didUpdateChanges files
      let didUpdateThirdParty := _didUpdateThirdParty files thirdPartyFolders
      let h2 :=
        if !didUpdateChanges && checkChangesMd then
          h1 ++ [Effect.post pullRequestCommentsUrl headers (changesBody user)]
        else h1
      if didUpdateThirdParty then
        match thirdPartyFolders with
        | none => (.error (.typeError "Cannot read property 'length' of undefined"), h2)
        | some folders =>
          (.ok (), h2 ++ [Effect.post pullRequestCommentsUrl headers (thirdPartyBody user folders)])
      else (.ok (), h2)

end commentOnOpenedPullRequest

/-- The `typeof` operator: `null`, arrays and objects all give `object`. -/
def JSValue.typeof : JSValue → String
  | .undefined => "undefined"
  | .null => "object"
  | .boolean _ => "boolean"
  | .number _ => "number"
  | .string _ => "string"
  | .array _ => "object"
  | .object _ => "object"

/-- `Check.typeOf.object(name, test)` of the `cesium` package: throws a
`DeveloperError` when `typeof test !== 'object'` and does nothing
otherwise. -/
def Check.typeOf.object (name : String) (test : JSValue) : Except JSError Unit :=
  if test.typeof ≠ "object" then
    .error (.developerError
      ("Expected " ++ name ++ " to be typeof object, actual typeof was " ++ test.typeof))
  else .ok ()

/-- `commentOnOpenedPullRequest(jsonResponse, headers, thirdPartyFolders,
checkChangesMd)`. `_implementation` is the property of that name, looked up
at the call. The result is the new value of the module-level variable `user`
and what `_implementation` returned, or the error thrown. -/
def commentOnOpenedPullRequest {α β ρ : Type}
    (_implementation : String → JSValue → JSValue → α → β → ρ)
    (jsonResponse headers : JSValue) (thirdPartyFolders : α) (checkChangesMd : β) :
    Except JSError (JSValue × ρ) :=
  match Check.typeOf.object "jsonResponse" jsonResponse with
  | .error e => .error e
  | .ok _ =>
    match Check.typeOf.object "headers" headers with
    | .error e => .error e
    | .ok _ =>
      match jsonResponse.getProp "pull_request" with
      | .error e => .error e
      | .ok pullRequest =>
        match Check.typeOf.object "pullRequest" pullRequest with
        | .error e => .error e
        | .ok _ =>
          match pullRequest.getProp "user" with
          | .error e => .error e
          | .ok userObject =>
            match userObject.getProp "login" with
            | .error e => .error e
            | .ok user =>
              match pullRequest.getProp "url", pullRequest.getProp "comments_url" with
              | .ok url, .ok comments_url =>
                .ok (user, _implementation (url.toText ++ "/files") comments_url headers
                  thirdPartyFolders checkChangesMd)
              | .error e, _ => .error e
              | _, .error e => .error e

/-! ## Reference definitions used by the theorems -/

/-- Lower-casing of the ASCII letters, character by character: what
`String.prototype.toLowerCase` does on ASCII text. -/
def asciiToLowerCase (s : String) : String :=
  String.mk (s.toList.map Char.toLower)

/-- Each folder between backquotes and followed by a comma and a blank. -/
def commaItems : List String → String
  | [] => ""
  | folder :: folders => "`" ++ folder ++ "`, " ++ commaItems folders

/-- The enumeration of the folders as the specification words it: one
folder alone; two folders joined by `or`; three or more, all but the last
each followed by a comma, then `or` and the last. -/
def folderEnumeration : List String → String
  | [] => ""
  | [f1] => "`" ++ f1 ++ "`"
  | [f1, f2] => "`" ++ f1 ++ "` or `" ++ f2 ++ "`"
  | f1 :: f2 :: f3 :: rest =>
    commaItems (f1 :: f2 :: (f3 :: rest).dropLast) ++
      "or `" ++ (f3 :: rest).getLast (List.cons_ne_nil _ _) ++ "`"

/-- A folder between backquotes. -/
def quoted (folder : String) : String := "`" ++ folder ++ "`"

/-- The items with the separators between them, in order:
`item1 ++ separator1 ++ item2 ++ separator2 ++ ... ++ itemN`. -/
def interleave : List String → List String → String
  | [], _ => ""
  | [item], _ => item
  | item :: items, [] => item ++ interleave items []
  | item :: items, separator :: separators =>
    item ++ separator ++ interleave items separators

/-- The separators of an enumeration of `n` items that ends in `or`: none
for one item, ` or ` for two, commas and a final `, or ` for three or more. -/
def orSeparators : Nat → List String
  | 0 => []
  | 1 => []
  | 2 => [" or "]
  | n + 3 => List.replicate (n + 1) ", " ++ [", or "]

/-- A server on which the files url lists `vendor/lib.js` as the only changed
file. -/
def vendorWorld : OpenedWorld where
  getFiles := fun _ _ _ => .ok { statusCode := 200, body := [{ filename := "vendor/lib.js" }] }

/-- Settings with a threshold of five days. -/
def fiveDaySettings : RepositorySettings where
  headers := []
  maxDaysSinceUpdate := 5
  stalePullRequestTemplate := fun context =>
    if context.maxDaysSinceUpdate = 5 then "No activity for 5 days." else "No recent activity."

/-- A comment by `alice` created at instant 0. -/
def aliceComment : Comment where
  body := "Looks good to me"
  user := { login := "alice" }
  created_at := 0

/-- A clock six days after instant 0 and a server on which every comment
thread is paged, three pages long, its last page holding `aliceComment`. -/
def pagedWorld : StaleWorld where
  toLowerCase := asciiToLowerCase
  parseLink := fun link =>
    match link with
    | none => none
    | some _ => some [("next", { page := some "2" }), ("last", { page := some "3" })]
  now := fun _ => 6 * 86400000
  getPullRequests := fun _ _ _ => .ok [{ comments_url := "pr/1/comments" }]
  getComments := fun _ _ _ => .ok { link := some "link", body := [aliceComment] }
  post := fun _ _ _ _ => .ok ()

/-- As `pagedWorld`, but every comment thread fits one page, so that the
response carries no `link` header. -/
def singlePageWorld : StaleWorld where
  toLowerCase := asciiToLowerCase
  parseLink := fun link =>
    match link with
    | none => none
    | some _ => some [("next", { page := some "2" }), ("last", { page := some "3" })]
  now := fun _ => 6 * 86400000
  getPullRequests := fun _ _ _ => .ok [{ comments_url := "pr/1/comments" }]
  getComments := fun _ _ _ => .ok { link := none, body := [aliceComment] }
  post := fun _ _ _ _ => .ok ()

/-- As `pagedWorld`, with two open pull requests; every request for the
comments of the first one is answered with status 500. -/
def firstFailsWorld : StaleWorld where
  toLowerCase := asciiToLowerCase
  parseLink := pagedWorld.parseLink
  now := fun _ => 6 * 86400000
  getPullRequests := fun _ _ _ =>
    .ok [{ comments_url := "pr/1/comments" }, { comments_url := "pr/2/comments" }]
  getComments := fun _ url _ =>
    if startsWith url "pr/1/" then .error (.statusCode 500)
    else .ok { link := some "link", body := [aliceComment] }
  post := fun _ _ _ _ => .ok ()

/-- A `pull_request` webhook event for pull request 1 by `baxterthehacker`. -/
def pullRequestEvent : JSValue :=
  .object [("action", .string "opened"), ("number", .number "1"),
    ("pull_request", .object [
      ("url", .string "https://api.github.com/repos/baxterthehacker/public-repo/pulls/1"),
      ("comments_url",
        .string "https://api.github.com/repos/baxterthehacker/public-repo/issues/1/comments"),
      ("user", .object [("login", .string "baxterthehacker")])])]

/-! ## Lemmas on the runtime pieces -/

theorem isPrefixOf_nil_iff (l : List Char) : l.isPrefixOf [] = true ↔ l = [] := by
  cases l <;> simp [List.isPrefixOf]

/-- `indexOf` finds an occurrence exactly when there is one. -/
theorem indexOfFrom_ne_neg_one (searchString : List Char) :
    ∀ (s : List Char) (i : Int), 0 ≤ i →
      (indexOfFrom searchString s i ≠ -1 ↔ searchString <:+: s) := by
  intro s
  induction s with
  | nil =>
    intro i hi
    unfold indexOfFrom
    by_cases hp : searchString.isPrefixOf [] = true
    · have hnil : searchString = [] := (isPrefixOf_nil_iff _).1 hp
      subst hnil
      simp
      omega
    · have hne : searchString ≠ [] := fun hnil => hp ((isPrefixOf_nil_iff _).2 hnil)
      simp [hp, hne]
  | cons c cs ih =>
    intro i hi
    unfold indexOfFrom
    by_cases hp : searchString.isPrefixOf (c :: cs) = true
    · have hpre : searchString <+: c :: cs := List.isPrefixOf_iff_prefix.1 hp
      simp only [hp, if_true]
      constructor
      · intro _
        exact hpre.isInfix
      · intro _
        omega
    · have hpre : ¬ searchString <+: c :: cs := fun hx => hp (List.isPrefixOf_iff_prefix.2 hx)
      simp only [hp]
      rw [if_neg (by simp), ih (i + 1) (by omega), List.infix_cons_iff]
      constructor
      · intro hx
        exact Or.inr hx
      · intro hx
        rcases hx with hx | hx
        · exact absurd hx hpre
        · exact hx

theorem indexOf_ne_neg_one (s searchString : String) :
    indexOf s searchString ≠ -1 ↔ searchString.toList <:+: s.toList := by
  unfold indexOf
  exact indexOfFrom_ne_neg_one _ _ 0 (le_refl 0)

theorem startsWith_iff (s searchString : String) :
    startsWith s searchString = true ↔ searchString.toList <+: s.toList := by
  unfold startsWith
  exact List.isPrefixOf_iff_prefix

/-! ## The stop command -/

namespace stalePullRequest

theorem foundStopComment_cons (toLowerCase : String → String) (c : Comment)
    (rest : List Comment) :
    foundStopComment toLowerCase (c :: rest) =
      (decide (c.user.login ≠ "cesium-concierge" ∧
          indexOf (toLowerCase c.body) "@cesium-concierge stop" ≠ -1) ||
        foundStopComment toLowerCase rest) := by
  rw [foundStopComment]
  by_cases hc : c.user.login ≠ "cesium-concierge" ∧
      indexOf (toLowerCase c.body) "@cesium-concierge stop" ≠ -1
  · simp [hc]
  · simp [hc]

theorem foundStopComment_true_iff (toLowerCase : String → String) (comments : List Comment) :
    foundStopComment toLowerCase comments = true ↔
      ∃ c ∈ comments, c.user.login ≠ "cesium-concierge" ∧
        "@cesium-concierge stop".toList <:+: (toLowerCase c.body).toList := by
  induction comments with
  | nil => simp [foundStopComment]
  | cons c rest ih =>
    rw [foundStopComment_cons, Bool.or_eq_true, ih, decide_eq_true_iff,
      indexOf_ne_neg_one]
    simp

/-- C2. `foundStopComment` returns true exactly when some comment of the
list, at any position, is written by a login other than `cesium-concierge`
and has a lower-cased body containing `@cesium-concierge stop`; a list whose
comments are all written by `cesium-concierge` gives false, and so does the
empty list. -/
theorem foundStopComment_spec (toLowerCase : String → String) :
    (∀ comments : List Comment,
      foundStopComment toLowerCase comments = true ↔
        ∃ c ∈ comments, c.user.login ≠ "cesium-concierge" ∧
          "@cesium-concierge stop".toList <:+: (toLowerCase c.body).toList) ∧
    (∀ comments : List Comment,
      (∀ c ∈ comments, c.user.login = "cesium-concierge") →
        foundStopComment toLowerCase comments = false) ∧
    foundStopComment toLowerCase [] = false := by
  refine ⟨foundStopComment_true_iff toLowerCase, ?_, rfl⟩
  intro comments hall
  cases hf : foundStopComment toLowerCase comments with
  | false => rfl
  | true =>
    obtain ⟨c, hc, hlogin, _⟩ := (foundStopComment_true_iff toLowerCase comments).1 hf
    exact absurd (hall c hc) hlogin

end stalePullRequest

/-! ## Changed-file classification -/

namespace commentOnOpenedPullRequest

theorem didUpdateChanges_true_iff (files : List String) :
    _didUpdateChanges files = true ↔
      ∃ file ∈ files, "CHANGES.md".toList <+: file.toList := by
  induction files with
  | nil => simp [_didUpdateChanges]
  | cons file files ih =>
    rw [_didUpdateChanges]
    by_cases hf : changesRegexTest file = true
    · have hpre : "CHANGES.md".toList <+: file.toList := (startsWith_iff _ _).1 hf
      simp only [hf, if_true, true_iff]
      exact ⟨file, List.mem_cons_self _ _, hpre⟩
    · have hpre : ¬ "CHANGES.md".toList <+: file.toList :=
        fun hx => hf ((startsWith_iff _ _).2 hx)
      rw [if_neg hf, ih]
      constructor
      · rintro ⟨g, hg, hgp⟩
        exact ⟨g, List.mem_cons_of_mem _ hg, hgp⟩
      · rintro ⟨g, hg, hgp⟩
        rcases List.mem_cons.1 hg with hg | hg
        · subst hg
          exact absurd hgp hpre
        · exact ⟨g, hg, hgp⟩

/-- The text `CHANGES.md` does not overlap itself: a path in which something
that does not itself begin with `CHANGES.md` stands before `CHANGES.md` does
not begin with `CHANGES.md`. -/
theorem changes_not_prefix_of_leading (pre rest : List Char) (hne : pre ≠ [])
    (hpre : ¬ "CHANGES.md".toList <+: pre) :
    ¬ "CHANGES.md".toList <+: pre ++ ("CHANGES.md".toList ++ rest) := by
  have hchars : "CHANGES.md".toList = ['C', 'H', 'A', 'N', 'G', 'E', 'S', '.', 'm', 'd'] := by
    decide
  rw [hchars] at hpre ⊢
  generalize hT : ['C', 'H', 'A', 'N', 'G', 'E', 'S', '.', 'm', 'd'] = T at hpre ⊢
  intro hx
  have hlen10 : T.length = 10 := by rw [← hT]; rfl
  have hlen : pre.length < T.length := by
    by_contra hge
    exact hpre (List.prefix_of_prefix_length_le hx (List.prefix_append _ _) (by omega))
  have hpt : pre <+: T :=
    List.prefix_of_prefix_length_le (List.prefix_append _ _) hx (by omega)
  have htake : pre = T.take pre.length := List.prefix_iff_eq_take.1 hpt
  have hpos : 0 < pre.length := List.length_pos.2 hne
  have hsplit : pre ++ T.drop pre.length = T := by
    conv_rhs => rw [← List.take_append_drop pre.length T]
    rw [← htake]
  have hx1 : pre ++ T.drop pre.length <+: pre ++ (T ++ rest) := by
    rw [hsplit]
    exact hx
  have hx2 : T.drop pre.length <+: T ++ rest := (List.prefix_append_right_inj pre).1 hx1
  rw [hlen10] at hlen
  generalize pre.length = k at hlen hpos hx2
  have hcases : k = 1 ∨ k = 2 ∨ k = 3 ∨ k = 4 ∨ k = 5 ∨ k = 6 ∨ k = 7 ∨ k = 8 ∨ k = 9 := by
    omega
  subst hT
  rcases hcases with h | h | h | h | h | h | h | h | h <;> subst h <;>
    simp [List.cons_prefix_cons] at hx2

theorem didUpdateChanges_false_of_lead (files : List String)
    (hall : ∀ file ∈ files, ∃ lead rest : String, lead ≠ "" ∧
      ¬ "CHANGES.md".toList <+: lead.toList ∧ file = lead ++ "CHANGES.md" ++ rest) :
    _didUpdateChanges files = false := by
  cases hf : _didUpdateChanges files with
  | false => rfl
  | true =>
    obtain ⟨file, hmem, hpre⟩ := (didUpdateChanges_true_iff files).1 hf
    obtain ⟨lead, rest, hne, hlead, hfile⟩ := hall file hmem
    exfalso
    have hne2 : lead.toList ≠ [] := by
      intro hnil
      apply hne
      cases lead
      simp_all
    apply changes_not_prefix_of_leading lead.toList rest.toList hne2 hlead
    rw [hfile] at hpre
    simpa [String.toList, String.data_append, List.append_assoc] using hpre

/-- C5. `_didUpdateChanges` returns true exactly when some path begins with
the literal text `CHANGES.md`; it is false on the empty list, on every list
whose paths each have one character (a `/`, a `.`, any other) before
`CHANGES.md`, and on every list whose paths each carry a non-empty lead (a
directory, say) before `CHANGES.md`, the lead not itself beginning with
`CHANGES.md`. -/
theorem didUpdateChanges_spec :
    (∀ files : List String,
      _didUpdateChanges files = true ↔
        ∃ file ∈ files, "CHANGES.md".toList <+: file.toList) ∧
    _didUpdateChanges [] = false ∧
    (∀ files : List String,
      (∀ file ∈ files, ∃ (c : Char) (rest : String),
          file = String.singleton c ++ "CHANGES.md" ++ rest) →
        _didUpdateChanges files = false) ∧
    (∀ files : List String,
      (∀ file ∈ files, ∃ lead rest : String, lead ≠ "" ∧
          ¬ "CHANGES.md".toList <+: lead.toList ∧
          file = lead ++ "CHANGES.md" ++ rest) →
        _didUpdateChanges files = false) := by
  refine ⟨didUpdateChanges_true_iff, rfl, ?_, didUpdateChanges_false_of_lead⟩
  intro files hall
  apply didUpdateChanges_false_of_lead
  intro file hmem
  obtain ⟨c, rest, hfile⟩ := hall file hmem
  refine ⟨String.singleton c, rest, ?_, ?_, hfile⟩
  · intro hempty
    have hlen := congrArg String.length hempty
    simp [String.singleton, String.length] at hlen
  · intro hpre
    have hlen := hpre.length_le
    simp [String.singleton, String.toList] at hlen

theorem thirdPartyInnerLoop_eq (file : String) (folders : List String) :
    thirdPartyInnerLoop file folders =
      if ∃ folder ∈ folders, folder.toList <+: file.toList then some true else none := by
  induction folders with
  | nil => simp [thirdPartyInnerLoop]
  | cons folder folders ih =>
    rw [thirdPartyInnerLoop]
    by_cases hf : startsWith file folder = true
    · have hpre : folder.toList <+: file.toList := (startsWith_iff _ _).1 hf
      rw [if_pos hf, if_pos ⟨folder, List.mem_cons_self _ _, hpre⟩]
    · have hpre : ¬ folder.toList <+: file.toList :=
        fun hx => hf ((startsWith_iff _ _).2 hx)
      rw [if_neg hf, ih]
      have hiff : (∃ g ∈ folders, g.toList <+: file.toList) ↔
          ∃ g ∈ folder :: folders, g.toList <+: file.toList := by
        constructor
        · rintro ⟨g, hg, hgp⟩
          exact ⟨g, List.mem_cons_of_mem _ hg, hgp⟩
        · rintro ⟨g, hg, hgp⟩
          rcases List.mem_cons.1 hg with hg | hg
          · subst hg
            exact absurd hgp hpre
          · exact ⟨g, hg, hgp⟩
      simp only [hiff]

theorem thirdPartyOuterLoop_true_iff (folders files : List String) :
    thirdPartyOuterLoop folders files = true ↔
      ∃ file ∈ files, ∃ folder ∈ folders, folder.toList <+: file.toList := by
  induction files with
  | nil => simp [thirdPartyOuterLoop]
  | cons file files ih =>
    rw [thirdPartyOuterLoop, thirdPartyInnerLoop_eq]
    by_cases hx : ∃ folder ∈ folders, folder.toList <+: file.toList
    · simp only [hx, if_true, true_iff]
      exact ⟨file, List.mem_cons_self _ _, hx⟩
    · simp only [hx, if_false]
      rw [ih]
      simp only [List.mem_cons, exists_eq_or_imp]
      constructor
      · intro hy
        exact Or.inr hy
      · intro hy
        rcases hy with hy | hy
        · exact absurd hy hx
        · exact hy

theorem didUpdateThirdParty_true_iff (files : List String)
    (thirdPartyFolders : Option (List String)) :
    _didUpdateThirdParty files thirdPartyFolders = true ↔
      ∃ folders, thirdPartyFolders = some folders ∧
        ∃ file ∈ files, ∃ folder ∈ folders, folder.toList <+: file.toList := by
  cases thirdPartyFolders with
  | none => simp [_didUpdateThirdParty]
  | some folders =>
    simp only [_didUpdateThirdParty, Option.some.injEq, exists_eq_left']
    by_cases hlen : folders.length = 0
    · have hnil : folders = [] := List.length_eq_zero.1 hlen
      subst hnil
      simp
    · rw [if_neg hlen]
      exact thirdPartyOuterLoop_true_iff folders files

/-- C4. `_didUpdateThirdParty` returns true exactly when `thirdPartyFolders`
is defined and some path starts with some entry of it; so it is false when
`thirdPartyFolders` is undefined or empty, and reordering the paths or the
folders does not change the result. -/
theorem didUpdateThirdParty_spec :
    (∀ (files : List String) (thirdPartyFolders : Option (List String)),
      _didUpdateThirdParty files thirdPartyFolders = true ↔
        ∃ folders, thirdPartyFolders = some folders ∧
          ∃ file ∈ files, ∃ folder ∈ folders, folder.toList <+: file.toList) ∧
    (∀ files : List String,
      _didUpdateThirdParty files none = false ∧
      _didUpdateThirdParty files (some []) = false) ∧
    (∀ files files1 folders folders1 : List String,
      files.Perm files1 → folders.Perm folders1 →
        _didUpdateThirdParty files1 (some folders1) =
          _didUpdateThirdParty files (some folders)) := by
  refine ⟨didUpdateThirdParty_true_iff, fun files => ⟨rfl, rfl⟩, ?_⟩
  intro files files1 folders folders1 hfiles hfolders
  rw [Bool.eq_iff_iff, didUpdateThirdParty_true_iff, didUpdateThirdParty_true_iff]
  simp only [Option.some.injEq, exists_eq_left']
  constructor
  · rintro ⟨file, hfile, folder, hfolder, hpre⟩
    exact ⟨file, hfiles.mem_iff.2 hfile, folder, hfolders.mem_iff.2 hfolder, hpre⟩
  · rintro ⟨file, hfile, folder, hfolder, hpre⟩
    exact ⟨file, hfiles.mem_iff.1 hfile, folder, hfolders.mem_iff.1 hfolder, hpre⟩

end commentOnOpenedPullRequest

/-! ## The reminders of an opened pull request -/

namespace commentOnOpenedPullRequest

theorem getD_eq_of_drop (folders : List String) (i : Nat) (a : String) (l : List String)
    (hd : folders.drop i = a :: l) : folders.getD i "undefined" = a := by
  have hlt : i < folders.length := by
    by_contra hge
    rw [List.drop_of_length_le (by omega)] at hd
    exact List.noConfusion hd
  have h1 : folders.drop i = folders[i] :: folders.drop (i + 1) := List.drop_eq_getElem_cons hlt
  rw [h1] at hd
  rw [List.getD_eq_getElem _ _ hlt]
  exact (List.cons.inj hd).1

theorem folderLoop_eq (folders : List String) :
    ∀ (fuel i : Nat) (message : String), folders.length - 1 - i ≤ fuel →
      folderLoop folders fuel i message =
        message ++ commaItems (folders.drop i).dropLast := by
  intro fuel
  induction fuel with
  | zero =>
    intro i message hfuel
    have hlen : (folders.drop i).length ≤ 1 := by
      rw [List.length_drop]
      omega
    have hnil : (folders.drop i).dropLast = [] := by
      apply List.eq_nil_of_length_eq_zero
      rw [List.length_dropLast]
      omega
    rw [folderLoop, hnil]
    simp [commaItems]
  | succ fuel ih =>
    intro i message hfuel
    rw [folderLoop]
    by_cases hi : i < folders.length - 1
    · rw [if_pos hi]
      have hlt : i < folders.length := by omega
      have hd : folders.drop i = folders[i] :: folders.drop (i + 1) :=
        List.drop_eq_getElem_cons hlt
      have hne : folders.drop (i + 1) ≠ [] := by
        intro hnil
        have hl := congrArg List.length hnil
        rw [List.length_drop] at hl
        simp at hl
        omega
      simp only []
      rw [ih (i + 1) _ (by omega), getD_eq_of_drop folders i _ _ hd, hd,
        List.dropLast_cons_of_ne_nil hne, commaItems]
      simp [String.append_assoc]
    · rw [if_neg hi]
      have hnil : (folders.drop i).dropLast = [] := by
        apply List.eq_nil_of_length_eq_zero
        rw [List.length_dropLast, List.length_drop]
        omega
      rw [hnil]
      simp [commaItems]

theorem appendFolders_eq (folders : List String) (message : String) (hne : folders ≠ []) :
    appendFolders folders message = message ++ folderEnumeration folders := by
  match folders, hne with
  | [f1], _ => simp [appendFolders, folderEnumeration]
  | [f1, f2], _ => simp [appendFolders, folderEnumeration, String.append_assoc]
  | f1 :: f2 :: f3 :: rest, _ =>
    have hloop := folderLoop_eq (f1 :: f2 :: f3 :: rest) (rest.length + 3) 0 message
      (by simp)
    have hlast : (f1 :: f2 :: f3 :: rest).getD (rest.length + 3 - 1) "undefined" =
        (f3 :: rest).getLast (List.cons_ne_nil _ _) := by
      rw [List.getD_eq_getElem _ _ (by simp)]
      rw [List.getLast_eq_getElem]
      simp
    simp only [appendFolders, List.length_cons]
    rw [hloop, hlast]
    simp [folderEnumeration, String.append_assoc, List.dropLast]

end commentOnOpenedPullRequest

theorem commaItems_or_last (a : String) (l : List String) (hne : l ≠ []) :
    commaItems (a :: l).dropLast ++ ("or `" ++ ((a :: l).getLast (List.cons_ne_nil _ _) ++ "`")) =
      interleave ((a :: l).map quoted) (List.replicate (l.length - 1) ", " ++ [", or "]) := by
  induction l generalizing a with
  | nil => exact absurd rfl hne
  | cons b l ih =>
    cases l with
    | nil =>
      have hlit : ("`, " : String) ++ "or `" = "`" ++ ", or " ++ "`" := by decide
      simp only [List.dropLast, commaItems, List.getLast_cons_cons, List.getLast_singleton,
        List.map_cons, List.map_nil, List.length_singleton, Nat.sub_self, List.replicate_zero,
        List.nil_append, interleave, quoted]
      simp only [String.append_assoc, String.append_empty]
      rw [← String.append_assoc "`, " "or `", hlit]
      simp only [String.append_assoc]
    | cons c l =>
      have hlit : ("`, " : String) = "`" ++ ", " := by decide
      have hrep : List.replicate ((b :: c :: l).length - 1) ", " ++ [", or "] =
          ", " :: (List.replicate ((c :: l).length - 1) ", " ++ [", or "]) := by
        simp [List.replicate_succ]
      rw [hrep]
      have hstep := ih b (List.cons_ne_nil _ _)
      simp only [List.dropLast, List.getLast_cons_cons, List.map_cons, interleave, commaItems,
        quoted] at hstep ⊢
      rw [← hstep]
      simp only [String.append_assoc]
      rw [hlit]
      simp only [String.append_assoc]

theorem folderEnumeration_eq_interleave (folders : List String) :
    folderEnumeration folders =
      interleave (folders.map quoted) (orSeparators folders.length) := by
  match folders with
  | [] => rfl
  | [f1] => rfl
  | [f1, f2] =>
    simp only [folderEnumeration, List.map_cons, List.map_nil, interleave, quoted,
      List.length_cons, List.length_nil, orSeparators, String.append_assoc]
    have hlit : ("` or `" : String) = "`" ++ " or " ++ "`" := by decide
    rw [hlit]
    simp only [String.append_assoc]
  | f1 :: f2 :: f3 :: rest =>
    have hlast : (f3 :: rest).getLast (List.cons_ne_nil _ _) =
        (f1 :: f2 :: f3 :: rest).getLast (List.cons_ne_nil _ _) := by
      simp [List.getLast_cons_cons]
    have hdrop : f1 :: f2 :: (f3 :: rest).dropLast = (f1 :: f2 :: f3 :: rest).dropLast := by
      simp [List.dropLast]
    have hsep : orSeparators (f1 :: f2 :: f3 :: rest).length =
        List.replicate ((f2 :: f3 :: rest).length - 1) ", " ++ [", or "] := by
      simp [orSeparators]
    rw [hsep, ← commaItems_or_last f1 (f2 :: f3 :: rest) (List.cons_ne_nil _ _)]
    simp only [folderEnumeration, hdrop, String.append_assoc]
    rw [hlast]

namespace commentOnOpenedPullRequest

theorem checkStatus_ok (response : FilesResponse)
    (hstatus : 200 ≤ response.statusCode ∧ response.statusCode < 300) :
    checkStatus response = .ok response := by
  unfold checkStatus
  rw [if_pos hstatus]

theorem implementation_history (w : OpenedWorld) (user : String)
    (pullRequestFilesUrl pullRequestCommentsUrl : String) (headers : Headers)
    (thirdPartyFolders : Option (List String)) (checkChangesMd : Bool) (h : History)
    (response : FilesResponse)
    (hget : w.getFiles h pullRequestFilesUrl headers = .ok response)
    (hstatus : 200 ≤ response.statusCode ∧ response.statusCode < 300) :
    _implementation w user pullRequestFilesUrl pullRequestCommentsUrl headers
        thirdPartyFolders checkChangesMd h =
      (.ok (),
        h ++ [Effect.get pullRequestFilesUrl headers] ++
          (if checkChangesMd = true ∧
              _didUpdateChanges (response.body.map (fun file => file.filename)) = false then
            [Effect.post pullRequestCommentsUrl headers (changesBody user)]
          else []) ++
          (if _didUpdateThirdParty (response.body.map (fun file => file.filename))
              thirdPartyFolders = true then
            [Effect.post pullRequestCommentsUrl headers
              (thirdPartyBody user (thirdPartyFolders.getD []))]
          else [])) := by
  unfold _implementation
  simp only [hget, checkStatus_ok response hstatus]
  cases hc : _didUpdateChanges (response.body.map (fun file => file.filename)) <;>
    cases hm : checkChangesMd <;>
    cases ht : _didUpdateThirdParty (response.body.map (fun file => file.filename))
      thirdPartyFolders <;>
    cases thirdPartyFolders <;>
    simp_all [_didUpdateThirdParty]

/-- C3. After a successful fetch of the changed files, `_implementation`
resolves having issued, in this order: the changelog reminder exactly when
`checkChangesMd` is true and `_didUpdateChanges(files)` is false, then the
restricted-folder reminder exactly when `_didUpdateThirdParty(files,
thirdPartyFolders)` is true. Hence at most two comments, each posted to
`pullRequestCommentsUrl`. -/
theorem implementation_comments (w : OpenedWorld) (user : String)
    (pullRequestFilesUrl pullRequestCommentsUrl : String) (headers : Headers)
    (thirdPartyFolders : Option (List String)) (checkChangesMd : Bool) (h : History)
    (response : FilesResponse)
    (hget : w.getFiles h pullRequestFilesUrl headers = .ok response)
    (hstatus : 200 ≤ response.statusCode ∧ response.statusCode < 300) :
    ∃ comments : List Effect,
      _implementation w user pullRequestFilesUrl pullRequestCommentsUrl headers
          thirdPartyFolders checkChangesMd h =
        (.ok (), h ++ [Effect.get pullRequestFilesUrl headers] ++ comments) ∧
      comments =
        (if checkChangesMd = true ∧
            _didUpdateChanges (response.body.map (fun file => file.filename)) = false then
          [Effect.post pullRequestCommentsUrl headers (changesBody user)]
        else []) ++
        (if _didUpdateThirdParty (response.body.map (fun file => file.filename))
            thirdPartyFolders = true then
          [Effect.post pullRequestCommentsUrl headers
            (thirdPartyBody user (thirdPartyFolders.getD []))]
        else []) ∧
      comments.length ≤ 2 ∧
      ∀ e ∈ comments, ∃ body, e = Effect.post pullRequestCommentsUrl headers body := by
  refine ⟨_, ?_, rfl, ?_, ?_⟩
  · rw [implementation_history w user pullRequestFilesUrl pullRequestCommentsUrl headers
      thirdPartyFolders checkChangesMd h response hget hstatus, List.append_assoc]
  · split_ifs <;> simp
  · intro e he
    split_ifs at he <;> simp at he
    · rcases he with he | he
      · exact ⟨_, he⟩
      · exact ⟨_, he⟩
    · exact ⟨_, he⟩
    · exact ⟨_, he⟩

theorem implementation_comments_witness :
    ∃ comments : List Effect,
      _implementation vendorWorld "alice" "pr/1/files" "pr/1/comments" []
          (some ["vendor/"]) true [] =
        (.ok (), [] ++ [Effect.get "pr/1/files" []] ++ comments) ∧
      comments =
        (if true = true ∧ _didUpdateChanges (["vendor/lib.js"]) = false then
          [Effect.post "pr/1/comments" [] (changesBody "alice")]
        else []) ++
        (if _didUpdateThirdParty (["vendor/lib.js"]) (some ["vendor/"]) = true then
          [Effect.post "pr/1/comments" []
            (thirdPartyBody "alice" ((some ["vendor/"]).getD []))]
        else []) ∧
      comments.length ≤ 2 ∧
      ∀ e ∈ comments, ∃ body, e = Effect.post "pr/1/comments" [] body :=
  implementation_comments vendorWorld "alice" "pr/1/files" "pr/1/comments" []
    (some ["vendor/"]) true [] { statusCode := 200, body := [{ filename := "vendor/lib.js" }] }
    rfl (by decide)

/-- C6. When the restricted-folder reminder fires for the folders
`thirdPartyFolders` and the author `user`, the body of the comment posted last
is `@user thanks for the pull request!`, a blank line, `I noticed that a file
in `, the enumeration of the folders (one; two joined by `or`; three or more
separated by commas with `or` before the last), `thirdPartyMessage2` and
`thanksAgain`. The enumeration is the configured folders, each between
backquotes, once and in configuration order, with only separators between
them. -/
theorem thirdParty_reminder_body (w : OpenedWorld) (user : String)
    (pullRequestFilesUrl pullRequestCommentsUrl : String) (headers : Headers)
    (thirdPartyFolders : List String) (checkChangesMd : Bool) (h : History)
    (response : FilesResponse)
    (hget : w.getFiles h pullRequestFilesUrl headers = .ok response)
    (hstatus : 200 ≤ response.statusCode ∧ response.statusCode < 300)
    (hfires : _didUpdateThirdParty (response.body.map (fun file => file.filename))
      (some thirdPartyFolders) = true) :
    thirdPartyFolders ≠ [] ∧
    (_implementation w user pullRequestFilesUrl pullRequestCommentsUrl headers
        (some thirdPartyFolders) checkChangesMd h).2.getLast? =
      some (Effect.post pullRequestCommentsUrl headers
        ("@" ++ user ++ " thanks for the pull request!\n\n" ++ "I noticed that a file in " ++
          folderEnumeration thirdPartyFolders ++ thirdPartyMessage2 ++ thanksAgain)) ∧
    folderEnumeration thirdPartyFolders =
      interleave (thirdPartyFolders.map quoted) (orSeparators thirdPartyFolders.length) := by
  have hne : thirdPartyFolders ≠ [] := by
    intro hnil
    subst hnil
    simp [_didUpdateThirdParty] at hfires
  refine ⟨hne, ?_, folderEnumeration_eq_interleave thirdPartyFolders⟩
  rw [implementation_history w user pullRequestFilesUrl pullRequestCommentsUrl headers
    (some thirdPartyFolders) checkChangesMd h response hget hstatus]
  simp only [hfires, if_true, Option.getD_some, List.getLast?_append, List.getLast?_singleton]
  simp only [thirdPartyBody, appendFolders_eq thirdPartyFolders _ hne, thirdPartyMessage1,
    thankYouMessage, String.append_assoc]
  rfl

theorem thirdParty_reminder_body_witness :
    ["a", "b", "c", "vendor/"] ≠ [] ∧
    (_implementation vendorWorld "alice" "pr/1/files" "pr/1/comments" []
        (some ["a", "b", "c", "vendor/"]) false []).2.getLast? =
      some (Effect.post "pr/1/comments" []
        ("@" ++ "alice" ++ " thanks for the pull request!\n\n" ++ "I noticed that a file in " ++
          "`a`, `b`, `c`, or `vendor/`" ++ thirdPartyMessage2 ++ thanksAgain)) ∧
    "`a`, `b`, `c`, or `vendor/`" =
      interleave ["`a`", "`b`", "`c`", "`vendor/`"] [", ", ", ", ", or "] :=
  thirdParty_reminder_body vendorWorld "alice" "pr/1/files" "pr/1/comments" []
    ["a", "b", "c", "vendor/"] false []
    { statusCode := 200, body := [{ filename := "vendor/lib.js" }] } rfl (by decide)
    (by decide)

end commentOnOpenedPullRequest

/-! ## The stale job -/

namespace stalePullRequest

theorem daysSince_eq (now date : Int) :
    daysSince now date = ((now - date : Int) : ℚ) / 86400000 := by
  unfold daysSince msPerDay
  norm_num

/-- The result of `_processPullRequest` once the last page has been fetched
and is not empty. -/
theorem processPullRequest_eq (w : StaleWorld) (pullRequest : PullRequest)
    (repositorySettings : RepositorySettings) (h : History)
    (response pageResponse : CommentsResponse) (lastPage : String)
    (hfirst : w.getComments h pullRequest.comments_url repositorySettings.headers =
      .ok response)
    (hlink : lastPageOf (w.parseLink response.link) = .ok lastPage)
    (hpage : w.getComments (h ++ [Effect.get pullRequest.comments_url repositorySettings.headers])
        (pullRequest.comments_url ++ "?page=" ++ lastPage) repositorySettings.headers =
      .ok pageResponse)
    (hne : pageResponse.body ≠ []) :
    _processPullRequest w pullRequest repositorySettings h =
      if foundStopComment w.toLowerCase pageResponse.body = false ∧
          ((w.now (h ++ [Effect.get pullRequest.comments_url repositorySettings.headers,
                Effect.get (pullRequest.comments_url ++ "?page=" ++ lastPage)
                  repositorySettings.headers]) -
              (pageResponse.body.getLast hne).created_at : Int) : ℚ) / 86400000 ≥
            repositorySettings.maxDaysSinceUpdate then
        (w.post
            (h ++ [Effect.get pullRequest.comments_url repositorySettings.headers,
              Effect.get (pullRequest.comments_url ++ "?page=" ++ lastPage)
                repositorySettings.headers])
            pullRequest.comments_url repositorySettings.headers
            (repositorySettings.stalePullRequestTemplate
              { maxDaysSinceUpdate := repositorySettings.maxDaysSinceUpdate }),
          h ++ [Effect.get pullRequest.comments_url repositorySettings.headers,
            Effect.get (pullRequest.comments_url ++ "?page=" ++ lastPage)
              repositorySettings.headers,
            Effect.post pullRequest.comments_url repositorySettings.headers
              (repositorySettings.stalePullRequestTemplate
                { maxDaysSinceUpdate := repositorySettings.maxDaysSinceUpdate })])
      else
        (.ok (),
          h ++ [Effect.get pullRequest.comments_url repositorySettings.headers,
            Effect.get (pullRequest.comments_url ++ "?page=" ++ lastPage)
              repositorySettings.headers]) := by
  unfold _processPullRequest
  simp only [hfirst, hlink, hpage, List.getLast?_eq_getLast _ hne, daysSince_eq,
    List.append_assoc, List.singleton_append]
  cases hstop : foundStopComment w.toLowerCase pageResponse.body with
  | true => simp
  | false =>
    by_cases hstale :
        ((w.now (h ++ [Effect.get pullRequest.comments_url repositorySettings.headers,
                Effect.get (pullRequest.comments_url ++ "?page=" ++ lastPage)
                  repositorySettings.headers]) -
              (pageResponse.body.getLast hne).created_at : Int) : ℚ) / 86400000 ≥
            repositorySettings.maxDaysSinceUpdate
    · simp [hstale]
    · simp [hstale]

/-- C1. Once the last comment page has been fetched and is not empty,
`_processPullRequest` posts exactly one comment, to the pull request's
`comments_url` and with the body the template renders for
`maxDaysSinceUpdate`, when no stop comment is on the page and the age of the
page's last comment, in days, is at least `maxDaysSinceUpdate`; otherwise it
posts nothing. It settles as the post does in the first case and resolves in
the second. -/
theorem processPullRequest_posts (w : StaleWorld) (pullRequest : PullRequest)
    (repositorySettings : RepositorySettings) (h : History)
    (response pageResponse : CommentsResponse) (lastPage : String)
    (hfirst : w.getComments h pullRequest.comments_url repositorySettings.headers =
      .ok response)
    (hlink : lastPageOf (w.parseLink response.link) = .ok lastPage)
    (hpage : w.getComments (h ++ [Effect.get pullRequest.comments_url repositorySettings.headers])
        (pullRequest.comments_url ++ "?page=" ++ lastPage) repositorySettings.headers =
      .ok pageResponse)
    (hne : pageResponse.body ≠ []) :
    _processPullRequest w pullRequest repositorySettings h =
      if foundStopComment w.toLowerCase pageResponse.body = false ∧
          ((w.now (h ++ [Effect.get pullRequest.comments_url repositorySettings.headers,
                Effect.get (pullRequest.comments_url ++ "?page=" ++ lastPage)
                  repositorySettings.headers]) -
              (pageResponse.body.getLast hne).created_at : Int) : ℚ) / 86400000 ≥
            repositorySettings.maxDaysSinceUpdate then
        (w.post
            (h ++ [Effect.get pullRequest.comments_url repositorySettings.headers,
              Effect.get (pullRequest.comments_url ++ "?page=" ++ lastPage)
                repositorySettings.headers])
            pullRequest.comments_url repositorySettings.headers
            (repositorySettings.stalePullRequestTemplate
              { maxDaysSinceUpdate := repositorySettings.maxDaysSinceUpdate }),
          h ++ [Effect.get pullRequest.comments_url repositorySettings.headers,
            Effect.get (pullRequest.comments_url ++ "?page=" ++ lastPage)
              repositorySettings.headers,
            Effect.post pullRequest.comments_url repositorySettings.headers
              (repositorySettings.stalePullRequestTemplate
                { maxDaysSinceUpdate := repositorySettings.maxDaysSinceUpdate })])
      else
        (.ok (),
          h ++ [Effect.get pullRequest.comments_url repositorySettings.headers,
            Effect.get (pullRequest.comments_url ++ "?page=" ++ lastPage)
              repositorySettings.headers]) :=
  processPullRequest_eq w pullRequest repositorySettings h response pageResponse lastPage
    hfirst hlink hpage hne

end stalePullRequest

namespace stalePullRequest

theorem processPullRequest_posts_witness :
    _processPullRequest pagedWorld { comments_url := "pr/1/comments" } fiveDaySettings [] =
      (.ok (), [Effect.get "pr/1/comments" [], Effect.get "pr/1/comments?page=3" [],
        Effect.post "pr/1/comments" [] "No activity for 5 days."]) := by
  have key := processPullRequest_posts pagedWorld { comments_url := "pr/1/comments" }
    fiveDaySettings [] { link := some "link", body := [aliceComment] }
    { link := some "link", body := [aliceComment] } "3" rfl rfl rfl (by simp)
  rw [key]
  have hurl : ("pr/1/comments" ++ "?page=" ++ "3" : String) = "pr/1/comments?page=3" := by decide
  simp only [hurl]
  simp only [pagedWorld, fiveDaySettings, aliceComment, List.getLast_singleton]
  norm_num
  decide

end stalePullRequest

/-! ## Failures in the stale job -/

theorem promiseEach_append {α : Type} (iterator : α → History → Outcome)
    (before after : List α) (h : History) :
    promiseEach iterator (before ++ after) h =
      match promiseEach iterator before h with
      | (.ok _, h1) => promiseEach iterator after h1
      | (.error e, h1) => (.error e, h1) := by
  induction before generalizing h with
  | nil => simp [promiseEach]
  | cons item items ih =>
    simp only [List.cons_append, promiseEach]
    rcases hit : iterator item h with ⟨r, h1⟩
    cases r with
    | ok u => exact ih h1
    | error e => rfl

/-- When the iterator is rejected on one item, `Promise.each` is rejected
with the same error and stops there, whatever items follow. -/
theorem promiseEach_stops {α : Type} (iterator : α → History → Outcome)
    (before after : List α) (item : α) (h hmid hfail : History) (e : JSError)
    (hbefore : promiseEach iterator before h = (.ok (), hmid))
    (hitem : iterator item hmid = (.error e, hfail)) :
    promiseEach iterator (before ++ item :: after) h = (.error e, hfail) := by
  rw [promiseEach_append, hbefore]
  simp only [promiseEach, hitem]

theorem stalePullRequest_eq_foldl
    (_processRepository : String → RepositorySettings → History → Outcome)
    (repositories : List (String × RepositorySettings)) (h : History) :
    stalePullRequest _processRepository repositories h =
      (.ok (), repositories.foldl
        (fun h0 entry => (_processRepository entry.1 entry.2 h0).2) h) := by
  unfold stalePullRequest
  induction repositories generalizing h with
  | nil => rfl
  | cons entry rest ih =>
    simp only [promiseEach, List.foldl_cons]
    rcases hrun : _processRepository entry.1 entry.2 h with ⟨r, h1⟩
    cases r with
    | ok u => exact ih h1
    | error e => exact ih h1

/-- C8. Whatever `_processRepository` does on each repository, resolving or
rejecting, `stalePullRequest` resolves, and the history it leaves is that of
running `_processRepository` once on every entry, in key order, each run
starting from the history the run before it left. In particular, when
`_processRepository` does nothing but request the repository's name and then
settles as `outcome` says, the requests made are exactly the names, once
each and in key order. -/
theorem stalePullRequest_attempts_all
    (_processRepository : String → RepositorySettings → History → Outcome)
    (repositories : List (String × RepositorySettings)) (h : History) :
    stalePullRequest _processRepository repositories h =
        (.ok (), repositories.foldl
          (fun h0 entry => (_processRepository entry.1 entry.2 h0).2) h) ∧
    ∀ outcome : String → Except JSError Unit,
      stalePullRequest
          (fun repositoryName _ h0 => (outcome repositoryName, h0 ++ [Effect.get repositoryName []]))
          repositories h =
        (.ok (), h ++ repositories.map (fun entry => Effect.get entry.1 [])) := by
  refine ⟨stalePullRequest_eq_foldl _ _ _, ?_⟩
  intro outcome
  rw [stalePullRequest_eq_foldl]
  congr 1
  induction repositories generalizing h with
  | nil => simp
  | cons entry rest ih =>
    simp only [List.foldl_cons, List.map_cons]
    rw [ih]
    simp

namespace stalePullRequest

/-- Without a `last` relation in what the link parser returns,
`_processPullRequest` is rejected with a `TypeError` right after the first
request. -/
theorem processPullRequest_no_last (w : StaleWorld) (pullRequest : PullRequest)
    (repositorySettings : RepositorySettings) (h : History) (response : CommentsResponse)
    (hfirst : w.getComments h pullRequest.comments_url repositorySettings.headers =
      .ok response)
    (hlast : ∀ links, w.parseLink response.link = some links → links.lookup "last" = none) :
    ∃ message,
      _processPullRequest w pullRequest repositorySettings h =
        (.error (.typeError message),
          h ++ [Effect.get pullRequest.comments_url repositorySettings.headers]) := by
  unfold _processPullRequest
  simp only [hfirst]
  cases hparse : w.parseLink response.link with
  | none => exact ⟨_, rfl⟩
  | some links =>
    simp only [lastPageOf, hlast links hparse]
    exact ⟨_, rfl⟩

/-- C9. On a single-page thread (no `link` header in the response, so the
link parser returns `null`), `_processPullRequest` is rejected with a
`TypeError` after its first request: the page is not fetched again, no stop
or staleness check runs, and the comment that is six days old with a
threshold of five days draws no post. -/
theorem processPullRequest_single_page :
    _processPullRequest singlePageWorld { comments_url := "pr/1/comments" } fiveDaySettings [] =
      (.error (.typeError "Cannot read property 'last' of null"),
        [Effect.get "pr/1/comments" []]) := by
  rfl

/-- C10, as amended. When `_processPullRequest` is rejected on pull request
`i` (the pull requests before it having resolved), `_processRepository` is
rejected with the same error and its history ends where that pull request
failed: no pull request after `i` is processed, whatever they are. -/
theorem processRepository_stops_at_failure (w : StaleWorld) (repositoryName : String)
    (repositorySettings : RepositorySettings) (h hmid hfail : History)
    (before after : List PullRequest) (pullRequest : PullRequest) (e : JSError)
    (hlist : w.getPullRequests h
        ("https://api.github.com/repos/" ++ repositoryName ++ "/pulls?state=open&base=master")
        repositorySettings.headers = .ok (before ++ pullRequest :: after))
    (hbefore : promiseEach (fun pr => _processPullRequest w pr repositorySettings) before
        (h ++ [Effect.get
          ("https://api.github.com/repos/" ++ repositoryName ++ "/pulls?state=open&base=master")
          repositorySettings.headers]) = (.ok (), hmid))
    (hfails : _processPullRequest w pullRequest repositorySettings hmid = (.error e, hfail)) :
    _processRepository w repositoryName repositorySettings h = (.error e, hfail) := by
  unfold _processRepository
  simp only [hlist]
  exact promiseEach_stops _ before after pullRequest _ hmid hfail e hbefore hfails

/-- C10, refuted as stated. With two open pull requests, the first one
failing, `_processRepository` is rejected and never requests the comments of
the second one, although the second one processed on its own is stale and
gets a comment. -/
theorem processRepository_skips_later_pull_requests :
    _processPullRequest firstFailsWorld { comments_url := "pr/1/comments" } fiveDaySettings
        [Effect.get "https://api.github.com/repos/o/r/pulls?state=open&base=master" []] =
      (.error (.statusCode 500),
        [Effect.get "https://api.github.com/repos/o/r/pulls?state=open&base=master" [],
          Effect.get "pr/1/comments" []]) ∧
    _processRepository firstFailsWorld "o/r" fiveDaySettings [] =
      (.error (.statusCode 500),
        [Effect.get "https://api.github.com/repos/o/r/pulls?state=open&base=master" [],
          Effect.get "pr/1/comments" []]) ∧
    Effect.get "pr/2/comments" [] ∉
      (_processRepository firstFailsWorld "o/r" fiveDaySettings []).2 ∧
    (_processPullRequest firstFailsWorld { comments_url := "pr/2/comments" } fiveDaySettings
        [Effect.get "https://api.github.com/repos/o/r/pulls?state=open&base=master" [],
          Effect.get "pr/1/comments" []]).2 =
      [Effect.get "https://api.github.com/repos/o/r/pulls?state=open&base=master" [],
        Effect.get "pr/1/comments" [], Effect.get "pr/2/comments" [],
        Effect.get "pr/2/comments?page=3" [],
        Effect.post "pr/2/comments" [] "No activity for 5 days."] := by
  have hrun : _processRepository firstFailsWorld "o/r" fiveDaySettings [] =
      (.error (.statusCode 500),
        [Effect.get "https://api.github.com/repos/o/r/pulls?state=open&base=master" [],
          Effect.get "pr/1/comments" []]) := by
    rfl
  refine ⟨by rfl, hrun, ?_, ?_⟩
  · rw [hrun]
    decide
  · have key := processPullRequest_eq firstFailsWorld { comments_url := "pr/2/comments" }
      fiveDaySettings
      [Effect.get "https://api.github.com/repos/o/r/pulls?state=open&base=master" [],
        Effect.get "pr/1/comments" []]
      { link := some "link", body := [aliceComment] }
      { link := some "link", body := [aliceComment] } "3" rfl rfl rfl (by simp)
    rw [key]
    have hurl : ("pr/2/comments" ++ "?page=" ++ "3" : String) = "pr/2/comments?page=3" := by
      decide
    simp only [hurl]
    simp only [firstFailsWorld, fiveDaySettings, aliceComment, List.getLast_singleton]
    norm_num
    decide

end stalePullRequest

/-! ## The entry point of the opened-pull-request handler -/

theorem checkObject_ok (name : String) (test : JSValue) (h : test.typeof = "object") :
    Check.typeOf.object name test = .ok () := by
  unfold Check.typeOf.object
  rw [if_neg (not_not.2 h)]

theorem checkObject_error (name : String) (test : JSValue) (h : test.typeof ≠ "object") :
    ∃ e, Check.typeOf.object name test = .error e := by
  unfold Check.typeOf.object
  rw [if_pos h]
  exact ⟨_, rfl⟩

/-- The result of the entry point on a `pull_request` object that carries a
`user` object with a `login`, once the three checks have passed. -/
theorem commentOnOpenedPullRequest_calls {α β ρ : Type}
    (_implementation : String → JSValue → JSValue → α → β → ρ)
    (fields pullRequestFields userFields : List (String × JSValue)) (headers login : JSValue)
    (thirdPartyFolders : α) (checkChangesMd : β)
    (hheaders : headers.typeof = "object")
    (hpr : fields.lookup "pull_request" = some (.object pullRequestFields))
    (huser : pullRequestFields.lookup "user" = some (.object userFields))
    (hlogin : userFields.lookup "login" = some login) :
    commentOnOpenedPullRequest _implementation (.object fields) headers
        thirdPartyFolders checkChangesMd =
      .ok (login,
        _implementation
          (((pullRequestFields.lookup "url").getD .undefined).toText ++ "/files")
          ((pullRequestFields.lookup "comments_url").getD .undefined)
          headers thirdPartyFolders checkChangesMd) := by
  unfold commentOnOpenedPullRequest
  simp [checkObject_ok _ _ hheaders, checkObject_ok _ (JSValue.object _) rfl,
    JSValue.getProp, hpr, huser, hlogin]

/-- C7, as amended. `commentOnOpenedPullRequest` throws, and so never reaches
`_implementation`, whenever `typeof jsonResponse` is not `object` or
`jsonResponse` is `null`, whenever `typeof headers` is not `object`, and
whenever `jsonResponse.pull_request` is missing, `null` or not of type
`object`. When `jsonResponse` and `pull_request` are objects, `headers` is an
object or an array, and `pull_request.user.login` exists, it does not throw:
it stores the login in `user` and returns the one call
`_implementation(pull_request.url + '/files', pull_request.comments_url,
headers, thirdPartyFolders, checkChangesMd)`. -/
theorem commentOnOpenedPullRequest_entry {α β ρ : Type}
    (_implementation : String → JSValue → JSValue → α → β → ρ)
    (jsonResponse headers : JSValue) (thirdPartyFolders : α) (checkChangesMd : β) :
    ((jsonResponse.typeof ≠ "object" ∨ jsonResponse = .null ∨
        headers.typeof ≠ "object" ∨
        (∀ pullRequest, jsonResponse.getProp "pull_request" = .ok pullRequest →
          pullRequest.typeof ≠ "object" ∨ pullRequest = .null)) →
      ∃ e, commentOnOpenedPullRequest _implementation jsonResponse headers
        thirdPartyFolders checkChangesMd = .error e) ∧
    (∀ (fields pullRequestFields userFields : List (String × JSValue)) (login : JSValue),
      jsonResponse = .object fields →
      ((∃ headerFields, headers = .object headerFields) ∨
        (∃ items, headers = .array items)) →
      fields.lookup "pull_request" = some (.object pullRequestFields) →
      pullRequestFields.lookup "user" = some (.object userFields) →
      userFields.lookup "login" = some login →
      commentOnOpenedPullRequest _implementation jsonResponse headers
          thirdPartyFolders checkChangesMd =
        .ok (login,
          _implementation
            (((pullRequestFields.lookup "url").getD .undefined).toText ++ "/files")
            ((pullRequestFields.lookup "comments_url").getD .undefined)
            headers thirdPartyFolders checkChangesMd)) := by
  constructor
  · intro hbad
    unfold commentOnOpenedPullRequest
    by_cases hj : jsonResponse.typeof = "object"
    · by_cases hh : headers.typeof = "object"
      · rw [checkObject_ok _ _ hj, checkObject_ok _ _ hh]
        simp only []
        cases hprop : jsonResponse.getProp "pull_request" with
        | error e => exact ⟨e, rfl⟩
        | ok pullRequest =>
          simp only []
          by_cases hp : pullRequest.typeof = "object"
          · rw [checkObject_ok _ _ hp]
            simp only []
            have hnull : pullRequest = .null := by
              rcases hbad with hb | hb | hb | hb
              · exact absurd hj hb
              · subst hb
                simp [JSValue.getProp] at hprop
              · exact absurd hh hb
              · rcases hb pullRequest hprop with hb | hb
                · exact absurd hp hb
                · exact hb
            subst hnull
            exact ⟨_, rfl⟩
          · obtain ⟨e, he⟩ := checkObject_error "pullRequest" pullRequest hp
            rw [he]
            exact ⟨e, rfl⟩
      · obtain ⟨e, he⟩ := checkObject_error "headers" headers hh
        rw [checkObject_ok _ _ hj, he]
        exact ⟨e, rfl⟩
    · obtain ⟨e, he⟩ := checkObject_error "jsonResponse" jsonResponse hj
      rw [he]
      exact ⟨e, rfl⟩
  · intro fields pullRequestFields userFields login hjson hheaders hpr huser hlogin
    subst hjson
    have htype : headers.typeof = "object" := by
      rcases hheaders with ⟨headerFields, hh⟩ | ⟨items, hh⟩ <;> subst hh <;> rfl
    exact commentOnOpenedPullRequest_calls _implementation fields pullRequestFields userFields
      headers login thirdPartyFolders checkChangesMd htype hpr huser hlogin

theorem commentOnOpenedPullRequest_entry_witness :
    (∃ e, commentOnOpenedPullRequest
        (fun a b c (d : List String) (e : Bool) => (a, b, c, d, e))
        pullRequestEvent .undefined ["c"] true = .error e) ∧
    commentOnOpenedPullRequest
        (fun a b c (d : List String) (e : Bool) => (a, b, c, d, e))
        pullRequestEvent (.object []) ["c"] true =
      .ok (.string "baxterthehacker",
        ("https://api.github.com/repos/baxterthehacker/public-repo/pulls/1" ++ "/files",
          .string "https://api.github.com/repos/baxterthehacker/public-repo/issues/1/comments",
          .object [], ["c"], true)) :=
  ⟨(commentOnOpenedPullRequest_entry _ pullRequestEvent .undefined ["c"] true).1
      (Or.inr (Or.inr (Or.inl (by decide)))),
    (commentOnOpenedPullRequest_entry _ pullRequestEvent (.object []) ["c"] true).2
      _ _ _ _ rfl (Or.inl ⟨[], rfl⟩) rfl rfl rfl⟩

/-- C7, refuted as stated. With a well-formed `pull_request` event, a
`headers` argument that is `null`, and likewise one that is an empty array,
is no structured map, yet nothing is thrown: `_implementation` is called with
that value as its headers. -/
theorem commentOnOpenedPullRequest_accepts_null_headers :
    commentOnOpenedPullRequest
        (fun a b c (d : List String) (e : Bool) => (a, b, c, d, e))
        pullRequestEvent .null [] false =
      .ok (.string "baxterthehacker",
        ("https://api.github.com/repos/baxterthehacker/public-repo/pulls/1/files",
          .string "https://api.github.com/repos/baxterthehacker/public-repo/issues/1/comments",
          .null, [], false)) ∧
    commentOnOpenedPullRequest
        (fun a b c (d : List String) (e : Bool) => (a, b, c, d, e))
        pullRequestEvent (.array []) [] false =
      .ok (.string "baxterthehacker",
        ("https://api.github.com/repos/baxterthehacker/public-repo/pulls/1/files",
          .string "https://api.github.com/repos/baxterthehacker/public-repo/issues/1/comments",
          .array [], [], false)) :=
  ⟨commentOnOpenedPullRequest_calls _
      [("action", .string "opened"), ("number", .number "1"),
        ("pull_request", .object [
          ("url", .string "https://api.github.com/repos/baxterthehacker/public-repo/pulls/1"),
          ("comments_url",
            .string "https://api.github.com/repos/baxterthehacker/public-repo/issues/1/comments"),
          ("user", .object [("login", .string "baxterthehacker")])])]
      _ _ .null _ [] false rfl rfl rfl rfl,
    commentOnOpenedPullRequest_calls _
      [("action", .string "opened"), ("number", .number "1"),
        ("pull_request", .object [
          ("url", .string "https://api.github.com/repos/baxterthehacker/public-repo/pulls/1"),
          ("comments_url",
            .string "https://api.github.com/repos/baxterthehacker/public-repo/issues/1/comments"),
          ("user", .object [("login", .string "baxterthehacker")])])]
      _ _ (.array []) _ [] false rfl rfl rfl rfl⟩

/-! ## The theorems at concrete inputs -/

theorem foundStopComment_spec_witness :
    stalePullRequest.foundStopComment asciiToLowerCase
        [aliceComment,
          { body := "Please @Cesium-Concierge STOP", user := { login := "bob" }, created_at := 0 },
          aliceComment] = true ∧
    stalePullRequest.foundStopComment asciiToLowerCase
        [{ body := "@cesium-concierge stop", user := { login := "cesium-concierge" },
            created_at := 0 }] = false :=
  ⟨((stalePullRequest.foundStopComment_spec asciiToLowerCase).1 _).2
      ⟨{ body := "Please @Cesium-Concierge STOP", user := { login := "bob" }, created_at := 0 },
        by simp, by decide, by decide⟩,
    (stalePullRequest.foundStopComment_spec asciiToLowerCase).2.1 _ (by simp)⟩

theorem didUpdateChanges_spec_witness :
    commentOnOpenedPullRequest._didUpdateChanges ["/test/test.txt", "CHANGES.md"] = true ∧
    commentOnOpenedPullRequest._didUpdateChanges ["./a/CHANGES.md"] = false :=
  ⟨(commentOnOpenedPullRequest.didUpdateChanges_spec.1 _).2
      ⟨"CHANGES.md", by simp, by decide⟩,
    commentOnOpenedPullRequest.didUpdateChanges_spec.2.2.2 ["./a/CHANGES.md"]
      (by
        intro file hfile
        rw [List.mem_singleton] at hfile
        subst hfile
        exact ⟨"./a/", "", by decide, by decide, by decide⟩)⟩

theorem didUpdateThirdParty_spec_witness :
    commentOnOpenedPullRequest._didUpdateThirdParty ["/a/b/file.txt"]
        (some ["/some/folder", "/a/b"]) = true ∧
    commentOnOpenedPullRequest._didUpdateThirdParty ["/a/b/file.txt", "c.txt"]
        (some ["/a/b", "/some/folder"]) =
      commentOnOpenedPullRequest._didUpdateThirdParty ["c.txt", "/a/b/file.txt"]
        (some ["/some/folder", "/a/b"]) :=
  ⟨(commentOnOpenedPullRequest.didUpdateThirdParty_spec.1 _ _).2
      ⟨_, rfl, "/a/b/file.txt", by simp, "/a/b", by simp, by decide⟩,
    commentOnOpenedPullRequest.didUpdateThirdParty_spec.2.2 _ _ _ _
      (List.Perm.swap _ _ _) (List.Perm.swap _ _ _)⟩

theorem processRepository_stops_at_failure_witness :
    stalePullRequest._processRepository firstFailsWorld "o/r" fiveDaySettings [] =
      (.error (.statusCode 500),
        [Effect.get "https://api.github.com/repos/o/r/pulls?state=open&base=master" [],
          Effect.get "pr/1/comments" []]) :=
  stalePullRequest.processRepository_stops_at_failure firstFailsWorld "o/r" fiveDaySettings []
    [Effect.get "https://api.github.com/repos/o/r/pulls?state=open&base=master" []]
    [Effect.get "https://api.github.com/repos/o/r/pulls?state=open&base=master" [],
      Effect.get "pr/1/comments" []]
    [] [{ comments_url := "pr/2/comments" }] { comments_url := "pr/1/comments" }
    (.statusCode 500) rfl rfl rfl

/-! ## Lookalikes of the changelog file -/

namespace commentOnOpenedPullRequest

/-- A path that continues after `CHANGES.md`, whatever follows, passes the
test of `_didUpdateChanges`: the pattern has no anchor at the end. -/
theorem didUpdateChanges_of_continuation (rest : String) :
    _didUpdateChanges ["CHANGES.md" ++ rest] = true := by
  rw [didUpdateChanges_true_iff]
  refine ⟨"CHANGES.md" ++ rest, List.mem_singleton.2 rfl, ?_⟩
  have hdata : ("CHANGES.md" ++ rest).toList = "CHANGES.md".toList ++ rest.toList := by
    simp [String.toList, String.data_append]
  rw [hdata]
  exact List.prefix_append _ _

/-- C11. On the lookalikes `CHANGES.mdx` and `CHANGES.mdown`, which are
`CHANGES.md` followed at once by a letter, `_didUpdateChanges` returns true,
not false; and so it does on `CHANGES.md` followed by any text at all. -/
theorem didUpdateChanges_lookalike :
    _didUpdateChanges ["CHANGES.mdx"] = true ∧
    _didUpdateChanges ["CHANGES.mdown"] = true ∧
    ∀ (letter : Char) (further : String),
      _didUpdateChanges ["CHANGES.md" ++ (String.singleton letter ++ further)] = true :=
  ⟨by decide, by decide,
    fun letter further => didUpdateChanges_of_continuation (String.singleton letter ++ further)⟩

end commentOnOpenedPullRequest
